import Mathlib

/-!
# Verification of the Givenergy-Octopus gap-filler reconciliation core

A shallow embedding of the reconciliation core of the
`mgazza/Givenergy-Ocotopus-Gaps` repository, together with proofs about it.

Modelling conventions, used throughout:

* Go `time.Time` instants are modelled as integer Unix seconds (`Int`).
  Go's `.Local()` / `.UTC()` calls change only the display zone of an
  instant, never the instant itself, so they are the identity here.
* Go `float64` values (cumulative registers, kWh, tariff rates) are
  modelled as rationals (`ℚ`); Go `int64` values (watt-hours,
  milli-pence) as `Int`.
* Go maps keyed by `time.Time` are modelled as functions
  `Int → Option α`; assignment is pointwise update.
* Loops of the form `for t := start; t.Before(end); t = t.Add(step)` are
  modelled by structural recursion on the number of iterations.
* Fallible functions return `Except`.
-/

namespace GivergyGaps

/-- Go map assignment `m[k] = v`, modelled as a pointwise update of a
total function into `Option`. -/
def mapUpdate {α : Type} (m : Int → Option α) (k : Int) (v : α) : Int → Option α :=
  fun t => if t = k then some v else m t

/-- Go's `t.Truncate(30 * time.Minute)`: round an instant down to a
multiple of 1800 seconds.  (Go truncates towards the zero time, which for
any instant after year 1 means rounding down; `%` on `Int` here is the
nonnegative-remainder `emod`, which rounds down as well.) -/
def truncHalfHour (t : Int) : Int := t - t % 1800

/-! ## Tariff resolution (`findRateForTime`, src/app.go:180-192 and
src/unnamed/part_004:171-183) -/

/-- `TariffData` (src/app.go / src/unnamed/part_004): a unit rate with
optional validity bounds.  A `none` bound means the interval is open on
that side. -/
structure TariffData where
  rate : ℚ
  validFrom : Option Int
  validTo : Option Int
deriving DecidableEq, Repr

/-- The per-interval condition tested by one iteration of
`findRateForTime`: `startBefore := iv.ValidFrom == nil || !t.Before(*iv.ValidFrom)`
and `endAfter := iv.ValidTo == nil || t.Before(*iv.ValidTo)`. -/
def tariffCondition (t : Int) (iv : TariffData) : Bool :=
  (match iv.validFrom with
   | none => true
   | some vf => !decide (t < vf)) &&
  (match iv.validTo with
   | none => true
   | some vt => decide (t < vt))

/-- `findRateForTime` (src/app.go:180-192): linear scan over the interval
list returning the first matching interval's rate, and the float `0.0`
when no interval matches. -/
def findRateForTime (t : Int) : List TariffData → ℚ
  | [] => 0
  | iv :: rest => if tariffCondition t iv then iv.rate else findRateForTime t rest

/-- The spec's half-open match rule, written from the spec's words:
`(validFrom unset OR instant ≥ validFrom) AND (validTo unset OR instant < validTo)`. -/
def halfOpenMatch (t : Int) (iv : TariffData) : Bool :=
  (match iv.validFrom with
   | none => true
   | some vf => decide (vf ≤ t)) &&
  (match iv.validTo with
   | none => true
   | some vt => decide (t < vt))

theorem tariffCondition_eq_halfOpenMatch (t : Int) (iv : TariffData) :
    tariffCondition t iv = halfOpenMatch t iv := by
  unfold tariffCondition halfOpenMatch
  rcases iv with ⟨r, vf, vt⟩
  rcases vf with _ | a <;> rcases vt with _ | b <;>
    simp [← decide_not, not_lt]

/-- **C1.**  For every instant `t` and interval list, when some interval
matches `t` under the spec's half-open rule the resolver returns the rate
of the *first* matching interval in input order (`List.find?` returns
exactly the first list element satisfying the predicate); moreover, under
that rule an instant equal to an interval's `validFrom` matches it (as
long as the interval is nonempty) and an instant equal to its `validTo`
never does. -/
theorem findRateForTime_first_match :
    (∀ (t : Int) (ivs : List TariffData) (iv : TariffData),
        ivs.find? (halfOpenMatch t) = some iv → findRateForTime t ivs = iv.rate) ∧
    (∀ (r : ℚ) (a b : Int),
        halfOpenMatch a ⟨r, some a, some b⟩ = decide (a < b)) ∧
    (∀ (r : ℚ) (a b : Int),
        halfOpenMatch b ⟨r, some a, some b⟩ = false) := by
  refine ⟨?_, ?_, ?_⟩
  · intro t ivs
    induction ivs with
    | nil => intro iv h; simp [List.find?] at h
    | cons hd tl ih =>
      intro iv h
      rw [List.find?_cons] at h
      by_cases hm : halfOpenMatch t hd = true
      · rw [hm] at h
        simp only [Option.some.injEq] at h
        subst h
        simp [findRateForTime, tariffCondition_eq_halfOpenMatch, hm]
      · rw [Bool.not_eq_true] at hm
        rw [hm] at h
        have := ih iv h
        simp [findRateForTime, tariffCondition_eq_halfOpenMatch, hm, this]
  · intro r a b; simp [halfOpenMatch]
  · intro r a b; simp [halfOpenMatch]

/-- Witness for `findRateForTime_first_match` at a concrete overlapping
interval list: intervals `[0,10)`, `[10,20)` and `[10,30)` all carry
different rates; at `t = 15` the second and third both match and the
second (earlier in input order) wins. -/
theorem findRateForTime_first_match_witness :
    findRateForTime 15
        [⟨5, some 0, some 10⟩, ⟨7, some 10, some 20⟩, ⟨9, some 10, some 30⟩] = 7 :=
  findRateForTime_first_match.1 15
    [⟨5, some 0, some 10⟩, ⟨7, some 10, some 20⟩, ⟨9, some 10, some 30⟩]
    ⟨7, some 10, some 20⟩ rfl

/-- **C2 counterexample.**  The resolver's no-match result is the plain
number `0`, not a distinguishable "unset" value: on the empty interval
list it returns `0`, exactly the same value it returns when an interval
with a genuine zero rate matches.  (The resolver's return type is a bare
float, so no "unset" encoding exists at all.) -/
theorem findRateForTime_returns_zero_on_no_match :
    findRateForTime 0 ([] : List TariffData) = 0 ∧
    findRateForTime 0 [⟨0, none, none⟩] = 0 :=
  ⟨rfl, rfl⟩

/-- **C2 (amended).**  When no interval matches the instant (the empty
list included), `findRateForTime` returns the numeric fallback `0.0`; the
result is a plain number and a caller cannot distinguish it from a
matched interval whose rate is genuinely zero. -/
theorem findRateForTime_no_match_eq_zero (t : Int) (ivs : List TariffData)
    (h : ∀ iv ∈ ivs, halfOpenMatch t iv = false) :
    findRateForTime t ivs = 0 := by
  induction ivs with
  | nil => rfl
  | cons hd tl ih =>
    have hhd := h hd (by simp)
    simp [findRateForTime, tariffCondition_eq_halfOpenMatch, hhd]
    exact ih fun iv hiv => h iv (by simp [hiv])

/-- Witness for `findRateForTime_no_match_eq_zero`: an instant strictly
before the only interval yields `0`. -/
theorem findRateForTime_no_match_eq_zero_witness :
    findRateForTime 0 [⟨5, some 1, some 2⟩] = 0 :=
  findRateForTime_no_match_eq_zero 0 [⟨5, some 1, some 2⟩] (by decide)

/-! ## Cumulative-register ingestion (`FetchHalfHourlyInverterData`,
src/unnamed/part_000:34-129 and src/app.go:116-183) -/

/-- `GE_UsageRow` (src/unnamed/part_000:40-46): the per-bucket record used
while reconciling the inverter's cumulative registers.  Go zero-initialises
every float field, so the fields are plain rationals defaulting to `0`. -/
structure GE_UsageRow where
  timestamp : Int
  cumulativeImportInverter : ℚ
  cumulativeExportInverter : ℚ
  importKWh : ℚ
  exportKWh : ℚ
deriving DecidableEq, Repr

/-- One raw inverter data point `d` of the API response: its instant and
the two cumulative grid registers `d.Total.Grid.Import` / `.Export`. -/
structure InverterSample where
  time : Int
  gridImport : ℚ
  gridExport : ℚ
deriving DecidableEq, Repr

/-- Body of the ingestion loop (src/unnamed/part_000:63-83): truncate the
sample's instant to its half-hour bucket, create the bucket's row on first
contribution, then keep the running maximum of each cumulative register
(`if export > row.CumulativeExportInverter { ... }`, and likewise for
import). -/
def ingestInverterSample (data : Int → Option GE_UsageRow) (d : InverterSample) :
    Int → Option GE_UsageRow :=
  let hf := truncHalfHour d.time
  let row := match data hf with
    | some r => r
    | none =>
        { timestamp := hf, cumulativeImportInverter := 0, cumulativeExportInverter := 0,
          importKWh := 0, exportKWh := 0 }
  let row1 := if d.gridExport > row.cumulativeExportInverter then
      { row with cumulativeExportInverter := d.gridExport } else row
  let row2 := if d.gridImport > row1.cumulativeImportInverter then
      { row1 with cumulativeImportInverter := d.gridImport } else row1
  mapUpdate data hf row2

/-- Ingesting a whole delivery of samples, in delivery order. -/
def ingestInverterSamples (data : Int → Option GE_UsageRow) (l : List InverterSample) :
    Int → Option GE_UsageRow :=
  l.foldl ingestInverterSample data

/-- Normal form of one ingestion step: the bucket's row becomes the
field-wise maximum of the old row (or the zero row) and the sample. -/
theorem ingestInverterSample_eq (data : Int → Option GE_UsageRow) (d : InverterSample) :
    ingestInverterSample data d =
      (let hf := truncHalfHour d.time
       let row := match data hf with
         | some r => r
         | none =>
             { timestamp := hf, cumulativeImportInverter := 0, cumulativeExportInverter := 0,
               importKWh := 0, exportKWh := 0 }
       mapUpdate data hf
         { row with
           cumulativeImportInverter := max row.cumulativeImportInverter d.gridImport,
           cumulativeExportInverter := max row.cumulativeExportInverter d.gridExport }) := by
  unfold ingestInverterSample
  rcases data (truncHalfHour d.time) with _ | r <;>
    · simp only [gt_iff_lt]
      split <;> split <;>
        simp_all [max_eq_right, max_eq_left, le_of_lt, max_eq_left_of_lt, not_lt,
          GE_UsageRow.mk.injEq]

/-- Two ingestion steps commute: the per-bucket states combine samples by
`max`, which is associative and commutative. -/
theorem ingestInverterSample_comm (data : Int → Option GE_UsageRow)
    (x y : InverterSample) :
    ingestInverterSample (ingestInverterSample data x) y =
    ingestInverterSample (ingestInverterSample data y) x := by
  rw [ingestInverterSample_eq data x, ingestInverterSample_eq data y]
  by_cases hb : truncHalfHour x.time = truncHalfHour y.time
  · rw [ingestInverterSample_eq, ingestInverterSample_eq]
    funext t
    simp only [mapUpdate, hb]
    split
    · rcases data (truncHalfHour y.time) with _ | r <;>
        simp [hb, max_assoc, max_comm x.gridImport y.gridImport,
          max_comm x.gridExport y.gridExport]
    · rfl
  · rw [ingestInverterSample_eq, ingestInverterSample_eq]
    funext t
    simp only [mapUpdate]
    by_cases hx : t = truncHalfHour x.time <;> by_cases hy : t = truncHalfHour y.time <;>
      simp_all [mapUpdate, hb, Ne.symm hb]

/-- **C3.**  Ingesting any two permutations of the same multiset of
cumulative inverter samples produces identical per-bucket states — in
particular identical per-bucket running maxima for both the import and
the export counter — because the per-bucket combination is a running
maximum, and `max` is associative and commutative. -/
theorem ingestInverterSamples_order_independent
    (l₁ l₂ : List InverterSample) (h : l₁.Perm l₂)
    (data : Int → Option GE_UsageRow) :
    ingestInverterSamples data l₁ = ingestInverterSamples data l₂ :=
  h.foldl_eq' (fun x _ y _ z => ingestInverterSample_comm z x y) data

/-- Witness for `ingestInverterSamples_order_independent`: two concrete
samples in the same bucket, delivered in either order. -/
theorem ingestInverterSamples_order_independent_witness :
    ingestInverterSamples (fun _ => none)
        [⟨100, 10, 3⟩, ⟨900, 12, 2⟩] =
    ingestInverterSamples (fun _ => none)
        [⟨900, 12, 2⟩, ⟨100, 10, 3⟩] :=
  ingestInverterSamples_order_independent
    [⟨100, 10, 3⟩, ⟨900, 12, 2⟩] [⟨900, 12, 2⟩, ⟨100, 10, 3⟩]
    (List.Perm.swap (⟨900, 12, 2⟩ : InverterSample) ⟨100, 10, 3⟩ []) (fun _ => none)

/-! ## Cumulative-register finalize pass (src/unnamed/part_000:93-109 and
src/app.go:164-180) -/

/-- The delta computation applied to a populated bucket's row when there is
a previous processed row (`row.ImportKWh = row.CumulativeImportInverter -
previous.CumulativeImportInverter`, and likewise for export).  With no
previous row the row is left untouched. -/
def applyDelta (r : GE_UsageRow) : Option GE_UsageRow → GE_UsageRow
  | none => r
  | some p =>
      { r with
        importKWh := r.cumulativeImportInverter - p.cumulativeImportInverter,
        exportKWh := r.cumulativeExportInverter - p.cumulativeExportInverter }

/-- The finalize loop of `FetchHalfHourlyInverterData`
(src/unnamed/part_000:93-109): step through the range in 30-minute
increments; a populated bucket gets its deltas against `previous` (when
set) and becomes the new `previous`; an unpopulated bucket receives a
copy of `previous` (`c := *previous`, a full struct copy) when `previous`
is set.  The Go loop runs while `t.Before(end)`; the iteration count is
made explicit as the last argument. -/
def finalizeInverter : (Int → Option GE_UsageRow) → Option GE_UsageRow → Int → Nat →
    (Int → Option GE_UsageRow)
  | data, _, _, 0 => data
  | data, previous, t, n + 1 =>
    match data t, previous with
    | none, none => finalizeInverter data none (t + 1800) n
    | none, some p => finalizeInverter (mapUpdate data t p) (some p) (t + 1800) n
    | some row, none => finalizeInverter data (some row) (t + 1800) n
    | some row, some p =>
        finalizeInverter (mapUpdate data t (applyDelta row (some p)))
          (some (applyDelta row (some p))) (t + 1800) n

/-- The instant of the `i`-th half-hour step after `t0`. -/
def bucketTime (t0 : Int) (i : Nat) : Int := t0 + 1800 * (i : Int)

theorem bucketTime_zero (t0 : Int) : bucketTime t0 0 = t0 := by
  simp [bucketTime]

theorem bucketTime_succ (t0 : Int) (i : Nat) :
    bucketTime t0 (i + 1) = bucketTime (t0 + 1800) i := by
  unfold bucketTime; push_cast; ring

theorem bucketTime_succ_ne (t0 : Int) (i : Nat) : bucketTime t0 (i + 1) ≠ t0 := by
  unfold bucketTime
  have : (0 : Int) ≤ (i : Int) := Int.natCast_nonneg i
  omega

/-- How one loop step changes the Go variable `previous`: a populated
bucket replaces it by the bucket's delta-updated row, an unpopulated
bucket leaves it alone. -/
def stepPrev (data : Int → Option GE_UsageRow) (previous : Option GE_UsageRow)
    (t0 : Int) : Option GE_UsageRow :=
  match data t0 with
  | none => previous
  | some r => some (applyDelta r previous)

/-- The Go variable `previous` as it stands when the finalize loop reaches
step `i`: starting from `previous`, fold the first `i` buckets with
`stepPrev`. -/
def lastProcessed : (Int → Option GE_UsageRow) → Option GE_UsageRow → Int → Nat →
    Option GE_UsageRow
  | _, previous, _, 0 => previous
  | data, previous, t0, i + 1 =>
      lastProcessed data (stepPrev data previous t0) (t0 + 1800) i

/-- The nearest prior populated bucket: the largest step index `j < i`
whose bucket holds an ingested row, if any. -/
def priorPopulated : (Int → Option GE_UsageRow) → Int → Nat → Option Nat
  | _, _, 0 => none
  | data, t0, i + 1 =>
      if (data (bucketTime t0 i)).isSome then some i else priorPopulated data t0 i

/-- The finalize loop never writes below its current position. -/
theorem finalizeInverter_below (n : Nat) :
    ∀ (data : Int → Option GE_UsageRow) (previous : Option GE_UsageRow) (t0 t : Int),
      t < t0 → finalizeInverter data previous t0 n t = data t := by
  induction n with
  | zero => intro data previous t0 t _; rfl
  | succ n ih =>
    intro data previous t0 t ht
    have ht' : t < t0 + 1800 := by omega
    have hne : t ≠ t0 := by omega
    rcases hd : data t0 with _ | row <;> rcases previous with _ | p <;>
      simp only [finalizeInverter, hd] <;>
      rw [ih _ _ (t0 + 1800) t ht'] <;>
      simp [mapUpdate, hne]

/-- `lastProcessed` only reads the data at or above its start instant. -/
theorem lastProcessed_congr (i : Nat) :
    ∀ (data data' : Int → Option GE_UsageRow) (previous : Option GE_UsageRow) (t0 : Int),
      (∀ s : Int, t0 ≤ s → data' s = data s) →
      lastProcessed data' previous t0 i = lastProcessed data previous t0 i := by
  induction i with
  | zero => intro _ _ _ _ _; rfl
  | succ i ih =>
    intro data data' previous t0 h
    simp only [lastProcessed, stepPrev, h t0 le_rfl]
    exact ih data data' _ (t0 + 1800) fun s hs => h s (by omega)

/-- Top-step unfolding of `lastProcessed`: the state entering step `i + 1`
reflects the bucket at step `i`. -/
theorem lastProcessed_top (i : Nat) :
    ∀ (data : Int → Option GE_UsageRow) (previous : Option GE_UsageRow) (t0 : Int),
      lastProcessed data previous t0 (i + 1) =
        match data (bucketTime t0 i) with
        | none => lastProcessed data previous t0 i
        | some r => some (applyDelta r (lastProcessed data previous t0 i)) := by
  induction i with
  | zero =>
    intro data previous t0
    simp only [lastProcessed, stepPrev, bucketTime_zero]
  | succ i ih =>
    intro data previous t0
    have h1 : lastProcessed data previous t0 (i + 1 + 1) =
        lastProcessed data (stepPrev data previous t0) (t0 + 1800) (i + 1) := rfl
    have h2 : lastProcessed data previous t0 (i + 1) =
        lastProcessed data (stepPrev data previous t0) (t0 + 1800) i := rfl
    rw [h1, ih data _ (t0 + 1800), ← bucketTime_succ, h2]

/-- Characterization of the finalize loop: at every step inside the range,
a populated bucket holds its delta-updated row and an unpopulated bucket
holds a copy of the most recently processed row (or stays absent). -/
theorem finalizeInverter_char (n : Nat) :
    ∀ (data : Int → Option GE_UsageRow) (previous : Option GE_UsageRow) (t0 : Int) (i : Nat),
      i < n →
      finalizeInverter data previous t0 n (bucketTime t0 i) =
        match data (bucketTime t0 i) with
        | some r => some (applyDelta r (lastProcessed data previous t0 i))
        | none => lastProcessed data previous t0 i := by
  induction n with
  | zero => intro _ _ _ i hi; omega
  | succ n ih =>
    intro data previous t0 i hi
    cases i with
    | zero =>
      rcases hd : data t0 with _ | row <;> rcases previous with _ | p <;>
        simp only [finalizeInverter, hd, bucketTime_zero, lastProcessed, applyDelta] <;>
        rw [finalizeInverter_below n _ _ (t0 + 1800) t0 (by omega)] <;>
        simp [mapUpdate, hd]
    | succ i =>
      have hi' : i < n := by omega
      have hbig : t0 < bucketTime (t0 + 1800) i := by
        unfold bucketTime
        have : (0 : Int) ≤ (i : Int) := Int.natCast_nonneg i
        omega
      have hagree : ∀ v : GE_UsageRow, ∀ s : Int, t0 + 1800 ≤ s →
          mapUpdate data t0 v s = data s := by
        intro v s hs
        simp [mapUpdate, show s ≠ t0 by omega]
      have hscrut : ∀ v : GE_UsageRow,
          mapUpdate data t0 v (bucketTime (t0 + 1800) i) = data (bucketTime (t0 + 1800) i) := by
        intro v
        simp only [mapUpdate]
        rw [if_neg hbig.ne']
      rcases hd : data t0 with _ | row <;> rcases previous with _ | p
      · simp only [finalizeInverter, hd]
        rw [bucketTime_succ, ih _ _ (t0 + 1800) i hi']
        simp only [lastProcessed, stepPrev, hd]
      · simp only [finalizeInverter, hd]
        rw [bucketTime_succ, ih _ _ (t0 + 1800) i hi']
        rw [lastProcessed_congr i data (mapUpdate data t0 p) (some p) (t0 + 1800) (hagree p)]
        rw [hscrut p]
        simp only [lastProcessed, stepPrev, hd]
      · simp only [finalizeInverter, hd]
        rw [bucketTime_succ, ih _ _ (t0 + 1800) i hi']
        simp only [lastProcessed, stepPrev, hd, applyDelta]
      · simp only [finalizeInverter, hd]
        rw [bucketTime_succ, ih _ _ (t0 + 1800) i hi']
        rw [lastProcessed_congr i data (mapUpdate data t0 (applyDelta row (some p)))
              (some (applyDelta row (some p))) (t0 + 1800) (hagree _)]
        rw [hscrut _]
        simp only [lastProcessed, stepPrev, hd]

theorem priorPopulated_lt (i : Nat) :
    ∀ (data : Int → Option GE_UsageRow) (t0 : Int) (j : Nat),
      priorPopulated data t0 i = some j → j < i := by
  induction i with
  | zero => intro data t0 j h; simp [priorPopulated] at h
  | succ i ih =>
    intro data t0 j h
    by_cases hs : (data (bucketTime t0 i)).isSome
    · simp [priorPopulated, hs] at h; omega
    · have := ih data t0 j (by simpa [priorPopulated, hs] using h); omega

theorem priorPopulated_isSome (i : Nat) :
    ∀ (data : Int → Option GE_UsageRow) (t0 : Int) (j : Nat),
      priorPopulated data t0 i = some j → (data (bucketTime t0 j)).isSome := by
  induction i with
  | zero => intro data t0 j h; simp [priorPopulated] at h
  | succ i ih =>
    intro data t0 j h
    by_cases hs : (data (bucketTime t0 i)).isSome
    · simp [priorPopulated, hs] at h
      subst h
      exact hs
    · exact ih data t0 j (by simpa [priorPopulated, hs] using h)

/-- With no prior populated bucket the loop has no `previous` row yet. -/
theorem lastProcessed_none_of_prior_none (i : Nat) :
    ∀ (data : Int → Option GE_UsageRow) (t0 : Int),
      priorPopulated data t0 i = none → lastProcessed data none t0 i = none := by
  induction i with
  | zero => intro _ _ _; rfl
  | succ i ih =>
    intro data t0 h
    rw [lastProcessed_top]
    rcases ho : data (bucketTime t0 i) with _ | r
    · simp only [ho]
      exact ih data t0 (by simpa [priorPopulated, ho] using h)
    · simp [priorPopulated, ho] at h

/-- With a nearest prior populated bucket `j`, the loop's `previous` row at
step `i` is exactly bucket `j`'s delta-processed row. -/
theorem lastProcessed_of_prior (i : Nat) :
    ∀ (data : Int → Option GE_UsageRow) (t0 : Int) (j : Nat) (rj : GE_UsageRow)
      (previous : Option GE_UsageRow),
      priorPopulated data t0 i = some j → data (bucketTime t0 j) = some rj →
      lastProcessed data previous t0 i =
        some (applyDelta rj (lastProcessed data previous t0 j)) := by
  induction i with
  | zero => intro data t0 j rj previous h _; simp [priorPopulated] at h
  | succ i ih =>
    intro data t0 j rj previous h hj
    rw [lastProcessed_top]
    by_cases hs : (data (bucketTime t0 i)).isSome
    · have hji : j = i := by simp [priorPopulated, hs] at h; omega
      subst hji
      simp only [hj]
    · have h' : priorPopulated data t0 i = some j := by
        simpa [priorPopulated, hs] using h
      rcases ho : data (bucketTime t0 i) with _ | r
      · simp only [ho]
        exact ih data t0 j rj previous h' hj
      · rw [ho] at hs; simp at hs

theorem applyDelta_cumImport (r : GE_UsageRow) (o : Option GE_UsageRow) :
    (applyDelta r o).cumulativeImportInverter = r.cumulativeImportInverter := by
  cases o <;> rfl

theorem applyDelta_cumExport (r : GE_UsageRow) (o : Option GE_UsageRow) :
    (applyDelta r o).cumulativeExportInverter = r.cumulativeExportInverter := by
  cases o <;> rfl

/-- **C4 (amended).**  In the finalize pass over a half-hour-stepped range:
(1) every bucket with a recorded row and at least one prior populated
bucket gets delta = (this bucket's cumulative maximum) − (cumulative
maximum of the nearest prior populated bucket, not necessarily the
immediately preceding calendar bucket); (2) every bucket with no recorded
row and a prior populated bucket ends up holding a *full copy* of the
nearest prior populated bucket's processed row — its cumulative values
*and* its delta fields — rather than having its own delta left unset;
(3) a bucket with no recorded row and no prior populated bucket stays
absent. -/
theorem finalizeInverter_delta_spec :
    (∀ (data : Int → Option GE_UsageRow) (t0 : Int) (n i j : Nat) (r rj : GE_UsageRow),
        i < n → data (bucketTime t0 i) = some r →
        priorPopulated data t0 i = some j → data (bucketTime t0 j) = some rj →
        finalizeInverter data none t0 n (bucketTime t0 i) =
          some { r with
                 importKWh := r.cumulativeImportInverter - rj.cumulativeImportInverter,
                 exportKWh := r.cumulativeExportInverter - rj.cumulativeExportInverter }) ∧
    (∀ (data : Int → Option GE_UsageRow) (t0 : Int) (n i j : Nat),
        i < n → data (bucketTime t0 i) = none →
        priorPopulated data t0 i = some j →
        finalizeInverter data none t0 n (bucketTime t0 i) =
          finalizeInverter data none t0 n (bucketTime t0 j)) ∧
    (∀ (data : Int → Option GE_UsageRow) (t0 : Int) (n i : Nat),
        i < n → data (bucketTime t0 i) = none →
        priorPopulated data t0 i = none →
        finalizeInverter data none t0 n (bucketTime t0 i) = none) := by
  refine ⟨?_, ?_, ?_⟩
  · intro data t0 n i j r rj hin hr hprior hrj
    rw [finalizeInverter_char n data none t0 i hin]
    simp only [hr]
    rw [lastProcessed_of_prior i data t0 j rj none hprior hrj]
    have e : applyDelta r (some (applyDelta rj (lastProcessed data none t0 j))) =
        { r with
          importKWh := r.cumulativeImportInverter -
            (applyDelta rj (lastProcessed data none t0 j)).cumulativeImportInverter,
          exportKWh := r.cumulativeExportInverter -
            (applyDelta rj (lastProcessed data none t0 j)).cumulativeExportInverter } := rfl
    rw [e, applyDelta_cumImport, applyDelta_cumExport]
  · intro data t0 n i j hin hnone hprior
    have hj : j < i := priorPopulated_lt i data t0 j hprior
    have hjs := priorPopulated_isSome i data t0 j hprior
    rcases ho : data (bucketTime t0 j) with _ | rj
    · rw [ho] at hjs; simp at hjs
    · rw [finalizeInverter_char n data none t0 i hin,
          finalizeInverter_char n data none t0 j (by omega)]
      simp only [hnone, ho]
      exact lastProcessed_of_prior i data t0 j rj none hprior ho
  · intro data t0 n i hin hnone hprior
    rw [finalizeInverter_char n data none t0 i hin]
    simp only [hnone]
    exact lastProcessed_none_of_prior_none i data t0 hprior

/-- Concrete ingested data for the C4 counterexample and witness: buckets
at steps 0 (instant 0) and 3 (instant 5400) are unpopulated; step 1
(instant 1800) has cumulative import 10 and step 2 (instant 3600) has
cumulative import 15. -/
def finalizeExampleData : Int → Option GE_UsageRow := fun t =>
  if t = 1800 then some ⟨1800, 10, 0, 0, 0⟩
  else if t = 3600 then some ⟨3600, 15, 0, 0, 0⟩
  else none

/-- **C4 counterexample.**  The unpopulated bucket at instant 5400 does
not get its delta "left unset": it receives a full copy of the processed
row of the nearest prior populated bucket, so its import delta reads the
fabricated value `15 - 10 = 5`, not the unset/zero value the claim
requires. -/
theorem finalizeInverter_fabricates_gap_delta :
    finalizeExampleData 5400 = none ∧
    (finalizeInverter finalizeExampleData none 0 4 5400).map GE_UsageRow.importKWh =
      some ((15 : ℚ) - 10) ∧
    (15 : ℚ) - 10 ≠ 0 := by
  refine ⟨rfl, ?_, by norm_num⟩
  simp [finalizeInverter, finalizeExampleData, mapUpdate, applyDelta]

/-- Witness for all three parts of `finalizeInverter_delta_spec` on
`finalizeExampleData`: the populated bucket at step 2 gets its delta
against step 1, the gap bucket at step 3 equals the processed bucket at
step 2, and the leading gap at step 0 stays absent. -/
theorem finalizeInverter_delta_spec_witness :
    (finalizeInverter finalizeExampleData none 0 4 (bucketTime 0 2) =
      some { timestamp := 3600, cumulativeImportInverter := 15, cumulativeExportInverter := 0,
             importKWh := (15 : ℚ) - 10, exportKWh := (0 : ℚ) - 0 }) ∧
    (finalizeInverter finalizeExampleData none 0 4 (bucketTime 0 3) =
      finalizeInverter finalizeExampleData none 0 4 (bucketTime 0 2)) ∧
    (finalizeInverter finalizeExampleData none 0 4 (bucketTime 0 0) = none) :=
  ⟨finalizeInverter_delta_spec.1 finalizeExampleData 0 4 2 1 ⟨3600, 15, 0, 0, 0⟩
      ⟨1800, 10, 0, 0, 0⟩ (by decide) rfl rfl rfl,
   finalizeInverter_delta_spec.2.1 finalizeExampleData 0 4 3 2 (by decide) rfl rfl,
   finalizeInverter_delta_spec.2.2 finalizeExampleData 0 4 0 (by decide) rfl rfl⟩

/-! ## Geo epoch-feed aggregation (`PopulateGeoData`,
src/givenergy_test.go:130-214 sum form; src/geo.go:85-213 cumulative form) -/

/-- The composite per-bucket record `UsageRow` in its latest, pointer-field
form (the struct written by src/givenergy.go, src/givenergy_test.go,
src/octopus.go and read by src/csv.go): every per-source field is
optional, `none` standing for a Go nil pointer. -/
structure UsageRow where
  timestamp : Int
  cumulativeImportInverter : Option ℚ
  cumulativeExportInverter : Option ℚ
  geImportKWh : Option ℚ
  geExportKWh : Option ℚ
  geoImportWh : Option Int
  geoImportGasWh : Option Int
  geoImportMilliPenceCost : Option Int
  geoImportGasMilliPenceCost : Option Int
  octoImportKWh : Option ℚ
  octoExportKWh : Option ℚ
  importPrice : Option ℚ
  exportPrice : Option ℚ
deriving DecidableEq, Repr

/-- A fresh `UsageRow{Timestamp: t}`: Go leaves every pointer field nil. -/
def newUsageRow (t : Int) : UsageRow :=
  ⟨t, none, none, none, none, none, none, none, none, none, none, none, none⟩

/-- One reading inside a geo epoch reading group: channel name, duration in
seconds, energy in watt-hours and cost in milli-pence. -/
structure GeoReading where
  energyType : String
  duration : Int
  energyWattHours : Int
  milliPenceCost : Int
deriving DecidableEq, Repr

/-- A geo epoch reading group: a start instant and its channel readings. -/
structure GeoReadingGroup where
  startTimestamp : Int
  readings : List GeoReading
deriving DecidableEq, Repr

/-- The four per-instant accumulators built by the sum form of
`PopulateGeoData` (src/givenergy_test.go:152-155). -/
structure GeoMaps where
  energyReadings : Int → Option Int
  gasReadings : Int → Option Int
  costReadings : Int → Option Int
  gasCostReadings : Int → Option Int

def geoMapsEmpty : GeoMaps :=
  ⟨fun _ => none, fun _ => none, fun _ => none, fun _ => none⟩

/-- Go's `m[k] += v`: a missing key reads as zero and becomes present. -/
def addAt (m : Int → Option Int) (k v : Int) : Int → Option Int :=
  mapUpdate m k ((m k).getD 0 + v)

/-- The `switch reading.EnergyType` body of the reading-group loop
(src/givenergy_test.go:160-169); channels other than `IMPORT` and
`GAS_ENERGY` fall through without touching the state. -/
def ingestGeoReadingSum (ts : Int) (s : GeoMaps) (r : GeoReading) : GeoMaps :=
  if r.energyType = "IMPORT" then
    { s with energyReadings := addAt s.energyReadings ts r.energyWattHours,
             costReadings := addAt s.costReadings ts r.milliPenceCost }
  else if r.energyType = "GAS_ENERGY" then
    { s with gasReadings := addAt s.gasReadings ts r.energyWattHours,
             gasCostReadings := addAt s.gasCostReadings ts r.milliPenceCost }
  else s

/-- The reading-ingestion double loop (src/givenergy_test.go:157-170):
each group's readings are keyed by the group's start instant. -/
def buildGeoMaps (groups : List GeoReadingGroup) : GeoMaps :=
  groups.foldl
    (fun s g => g.readings.foldl (ingestGeoReadingSum g.startTimestamp) s)
    geoMapsEmpty

/-- The four sums for one 30-minute slot starting at `t`
(src/givenergy_test.go:174-190): offsets 0 and 15 minutes; the Go code
adds a map value under an `exists` guard, so a missing key contributes
nothing — that is, zero. -/
def geoSlotSums (m : GeoMaps) (t : Int) : Int × Int × Int × Int :=
  [0, 15].foldl
    (fun acc offset =>
      let ts := t + offset * 60
      (acc.1 + (m.energyReadings ts).getD 0,
       acc.2.1 + (m.gasReadings ts).getD 0,
       acc.2.2.1 + (m.costReadings ts).getD 0,
       acc.2.2.2 + (m.gasCostReadings ts).getD 0))
    (0, 0, 0, 0)

/-- The 30-minute aggregation walk of `PopulateGeoData`
(src/givenergy_test.go:172-210).  A slot whose import and gas energy sums
are both zero is skipped: the Go code logs "No GEO data for ..., leaving
as nil" (the logged instants are collected in the second component) and
the usage map is left untouched at that slot.  Any other slot gets all
four geo fields set on the slot's row, the row being created when absent.
The iteration count stands for the Go loop condition `t.Before(endDate)`. -/
def geoWalkSum : GeoMaps → (Int → Option UsageRow) → List Int → Int → Nat →
    ((Int → Option UsageRow) × List Int)
  | _, usage, diags, _, 0 => (usage, diags)
  | m, usage, diags, t, n + 1 =>
    let s := geoSlotSums m t
    if s.1 = 0 ∧ s.2.1 = 0 then
      geoWalkSum m usage (diags ++ [t]) (t + 1800) n
    else
      let row := match usage t with
        | some r => r
        | none => newUsageRow t
      geoWalkSum m
        (mapUpdate usage t
          { row with geoImportWh := some s.1, geoImportGasWh := some s.2.1,
                     geoImportMilliPenceCost := some s.2.2.1,
                     geoImportGasMilliPenceCost := some s.2.2.2 })
        diags (t + 1800) n

/-- `PopulateGeoData` (sum form, src/givenergy_test.go:130-214): build the
per-instant accumulators from the fetched reading groups, then walk the
requested range in 30-minute slots from the truncated start date. -/
def populateGeoData (usage : Int → Option UsageRow) (groups : List GeoReadingGroup)
    (startDate : Int) (n : Nat) : (Int → Option UsageRow) × List Int :=
  geoWalkSum (buildGeoMaps groups) usage [] (truncHalfHour startDate) n

/-- The input of the repository's own `TestPopulateGeoData`, restricted to
the claim's three consecutive 15-minute IMPORT epochs: 1470 Wh and
1541 Wh in the first half hour of the window, 1358 Wh in the second.
Instant 1733709600 is the start of the window ("minute 0"). -/
def geoQuarterHourGroups : List GeoReadingGroup :=
  [⟨1733709600, [⟨"IMPORT", 900, 1470, 34559⟩]⟩,
   ⟨1733710500, [⟨"IMPORT", 900, 1541, 36228⟩]⟩,
   ⟨1733711400, [⟨"IMPORT", 900, 1358, 31926⟩]⟩]

/-- **C5.**  Aggregating three consecutive 15-minute IMPORT epochs of
1470, 1541 and 1358 Wh into 30-minute buckets assigns the bucket at
minute 0 the import total 3011 = 1470 + 1541 (with the corresponding cost
sum) and the bucket at minute 30 the import total 1358. -/
theorem populateGeoData_quarter_hour_buckets :
    (populateGeoData (fun _ => none) geoQuarterHourGroups 1733709600 2).1 1733709600 =
      some { newUsageRow 1733709600 with
             geoImportWh := some 3011, geoImportGasWh := some 0,
             geoImportMilliPenceCost := some 70787, geoImportGasMilliPenceCost := some 0 } ∧
    (populateGeoData (fun _ => none) geoQuarterHourGroups 1733709600 2).1 1733711400 =
      some { newUsageRow 1733711400 with
             geoImportWh := some 1358, geoImportGasWh := some 0,
             geoImportMilliPenceCost := some 31926, geoImportGasMilliPenceCost := some 0 } := by
  decide

/-- The slots the walk skips (and logs) for having zero import and gas
energy sums. -/
def skippedSlots : GeoMaps → Int → Nat → List Int
  | _, _, 0 => []
  | m, t, n + 1 =>
    if (geoSlotSums m t).1 = 0 ∧ (geoSlotSums m t).2.1 = 0 then
      t :: skippedSlots m (t + 1800) n
    else skippedSlots m (t + 1800) n

/-- The walk never writes below its current position. -/
theorem geoWalkSum_below (n : Nat) :
    ∀ (m : GeoMaps) (usage : Int → Option UsageRow) (diags : List Int) (t0 t : Int),
      t < t0 → (geoWalkSum m usage diags t0 n).1 t = usage t := by
  induction n with
  | zero => intro m usage diags t0 t _; rfl
  | succ n ih =>
    intro m usage diags t0 t ht
    have ht' : t < t0 + 1800 := by omega
    simp only [geoWalkSum]
    split
    · exact ih m usage _ (t0 + 1800) t ht'
    · rw [ih m _ diags (t0 + 1800) t ht']
      simp [mapUpdate, show t ≠ t0 by omega]

/-- The walk's diagnostic log is the incoming log followed by the skipped
slots. -/
theorem geoWalkSum_snd (n : Nat) :
    ∀ (m : GeoMaps) (usage : Int → Option UsageRow) (diags : List Int) (t0 : Int),
      (geoWalkSum m usage diags t0 n).2 = diags ++ skippedSlots m t0 n := by
  induction n with
  | zero => intro m usage diags t0; simp [geoWalkSum, skippedSlots]
  | succ n ih =>
    intro m usage diags t0
    simp only [geoWalkSum, skippedSlots]
    split
    · rw [ih]; simp
    · rw [ih]

/-- A skipped slot inside the range appears in `skippedSlots`. -/
theorem skippedSlots_mem (n : Nat) :
    ∀ (m : GeoMaps) (t0 : Int) (i : Nat), i < n →
      (geoSlotSums m (bucketTime t0 i)).1 = 0 →
      (geoSlotSums m (bucketTime t0 i)).2.1 = 0 →
      bucketTime t0 i ∈ skippedSlots m t0 n := by
  induction n with
  | zero => intro m t0 i hi; omega
  | succ n ih =>
    intro m t0 i hi h1 h2
    cases i with
    | zero =>
      rw [bucketTime_zero] at h1 h2 ⊢
      simp only [skippedSlots, if_pos (And.intro h1 h2)]
      exact List.mem_cons_self _ _
    | succ i =>
      have hmem : bucketTime (t0 + 1800) i ∈ skippedSlots m (t0 + 1800) n := by
        refine ih m (t0 + 1800) i (by omega) ?_ ?_ <;>
          rw [← bucketTime_succ] <;> assumption
      rw [bucketTime_succ]
      simp only [skippedSlots]
      split
      · exact List.mem_cons_of_mem _ hmem
      · exact hmem

/-- Characterization of the walk's usage map at every slot of the range:
a both-zero slot leaves the map untouched, any other slot holds the row
with all four geo fields set from the slot sums. -/
theorem geoWalkSum_fst_char (n : Nat) :
    ∀ (m : GeoMaps) (usage : Int → Option UsageRow) (diags : List Int) (t0 : Int) (i : Nat),
      i < n →
      (geoWalkSum m usage diags t0 n).1 (bucketTime t0 i) =
        (if (geoSlotSums m (bucketTime t0 i)).1 = 0 ∧
            (geoSlotSums m (bucketTime t0 i)).2.1 = 0 then
          usage (bucketTime t0 i)
         else
          some { (match usage (bucketTime t0 i) with
                  | some r => r
                  | none => newUsageRow (bucketTime t0 i)) with
                 geoImportWh := some (geoSlotSums m (bucketTime t0 i)).1,
                 geoImportGasWh := some (geoSlotSums m (bucketTime t0 i)).2.1,
                 geoImportMilliPenceCost := some (geoSlotSums m (bucketTime t0 i)).2.2.1,
                 geoImportGasMilliPenceCost := some (geoSlotSums m (bucketTime t0 i)).2.2.2 }) := by
  induction n with
  | zero => intro m usage diags t0 i hi; omega
  | succ n ih =>
    intro m usage diags t0 i hi
    cases i with
    | zero =>
      rw [bucketTime_zero]
      simp only [geoWalkSum]
      split
      · rw [geoWalkSum_below n m usage _ (t0 + 1800) t0 (by omega)]
      · rw [geoWalkSum_below n m _ diags (t0 + 1800) t0 (by omega)]
        simp [mapUpdate]
    | succ i =>
      have hi' : i < n := by omega
      have hbig : t0 < bucketTime (t0 + 1800) i := by
        unfold bucketTime
        have : (0 : Int) ≤ (i : Int) := Int.natCast_nonneg i
        omega
      rw [bucketTime_succ]
      simp only [geoWalkSum]
      split
      · exact ih m usage _ (t0 + 1800) i hi'
      · rw [ih m _ diags (t0 + 1800) i hi']
        simp only [mapUpdate, if_neg hbig.ne']

/-- **C6 (amended).**  In the epoch-feed walk, a bucket whose import and
gas energy sums are both zero — whether because no epoch snapshot falls
inside it or because the snapshots genuinely record zero energy — is left
unpopulated for the geo source (the usage map is untouched there, so
absence is never defaulted to a numeric zero row) and the bucket's
instant is logged as a diagnostic; every bucket with a nonzero energy sum
is populated with all four per-channel geo fields, the row being created
if absent.  The zero-sum skip cannot tell "no snapshots" apart from
"genuinely zero consumption", which is what the original claim rules
out. -/
theorem geoWalkSum_bucket_spec :
    (∀ (m : GeoMaps) (usage : Int → Option UsageRow) (t0 : Int) (n i : Nat),
        i < n →
        (geoSlotSums m (bucketTime t0 i)).1 = 0 →
        (geoSlotSums m (bucketTime t0 i)).2.1 = 0 →
        (geoWalkSum m usage [] t0 n).1 (bucketTime t0 i) = usage (bucketTime t0 i) ∧
        bucketTime t0 i ∈ (geoWalkSum m usage [] t0 n).2) ∧
    (∀ (m : GeoMaps) (usage : Int → Option UsageRow) (t0 : Int) (n i : Nat),
        i < n →
        ¬((geoSlotSums m (bucketTime t0 i)).1 = 0 ∧
          (geoSlotSums m (bucketTime t0 i)).2.1 = 0) →
        (geoWalkSum m usage [] t0 n).1 (bucketTime t0 i) =
          some { (match usage (bucketTime t0 i) with
                  | some r => r
                  | none => newUsageRow (bucketTime t0 i)) with
                 geoImportWh := some (geoSlotSums m (bucketTime t0 i)).1,
                 geoImportGasWh := some (geoSlotSums m (bucketTime t0 i)).2.1,
                 geoImportMilliPenceCost := some (geoSlotSums m (bucketTime t0 i)).2.2.1,
                 geoImportGasMilliPenceCost := some (geoSlotSums m (bucketTime t0 i)).2.2.2 }) := by
  constructor
  · intro m usage t0 n i hi h1 h2
    constructor
    · rw [geoWalkSum_fst_char n m usage [] t0 i hi, if_pos (And.intro h1 h2)]
    · rw [geoWalkSum_snd n m usage [] t0]
      simpa using skippedSlots_mem n m t0 i hi h1 h2
  · intro m usage t0 n i hi hne
    rw [geoWalkSum_fst_char n m usage [] t0 i hi, if_neg hne]

/-- A reading group whose two epoch readings genuinely record zero energy
(with nonzero cost): a recorded zero-consumption snapshot. -/
def geoZeroConsumptionGroups : List GeoReadingGroup :=
  [⟨1733709600, [⟨"IMPORT", 900, 0, 123⟩, ⟨"GAS_ENERGY", 900, 0, 45⟩]⟩]

/-- **C6 counterexample.**  A bucket with genuine zero-consumption
snapshots (the accumulators hold a recorded `0` at the bucket's instant)
is nevertheless turned into an absent bucket: the walk leaves the usage
map empty there, so "genuine zero consumption" is collapsed into
"absent", which the claim forbids. -/
theorem geoWalkSum_zero_consumption_dropped :
    (buildGeoMaps geoZeroConsumptionGroups).energyReadings 1733709600 = some 0 ∧
    (buildGeoMaps geoZeroConsumptionGroups).gasReadings 1733709600 = some 0 ∧
    (populateGeoData (fun _ => none) geoZeroConsumptionGroups 1733709600 1).1 1733709600 =
      none := by
  decide

/-- Witness for both parts of `geoWalkSum_bucket_spec`: one populated
slot (7 Wh import at instant 0) and one zero-sum slot (instant 1800). -/
theorem geoWalkSum_bucket_spec_witness :
    ((geoWalkSum (buildGeoMaps [⟨0, [⟨"IMPORT", 900, 7, 3⟩]⟩]) (fun _ => none) [] 0 2).1
        (bucketTime 0 1) = (fun _ => (none : Option UsageRow)) (bucketTime 0 1) ∧
      bucketTime 0 1 ∈
        (geoWalkSum (buildGeoMaps [⟨0, [⟨"IMPORT", 900, 7, 3⟩]⟩]) (fun _ => none) [] 0 2).2) ∧
    ((geoWalkSum (buildGeoMaps [⟨0, [⟨"IMPORT", 900, 7, 3⟩]⟩]) (fun _ => none) [] 0 2).1
        (bucketTime 0 0) =
      some { (match (fun _ => (none : Option UsageRow)) (bucketTime 0 0) with
              | some r => r
              | none => newUsageRow (bucketTime 0 0)) with
             geoImportWh :=
               some (geoSlotSums (buildGeoMaps [⟨0, [⟨"IMPORT", 900, 7, 3⟩]⟩])
                 (bucketTime 0 0)).1,
             geoImportGasWh :=
               some (geoSlotSums (buildGeoMaps [⟨0, [⟨"IMPORT", 900, 7, 3⟩]⟩])
                 (bucketTime 0 0)).2.1,
             geoImportMilliPenceCost :=
               some (geoSlotSums (buildGeoMaps [⟨0, [⟨"IMPORT", 900, 7, 3⟩]⟩])
                 (bucketTime 0 0)).2.2.1,
             geoImportGasMilliPenceCost :=
               some (geoSlotSums (buildGeoMaps [⟨0, [⟨"IMPORT", 900, 7, 3⟩]⟩])
                 (bucketTime 0 0)).2.2.2 }) :=
  ⟨geoWalkSum_bucket_spec.1 (buildGeoMaps [⟨0, [⟨"IMPORT", 900, 7, 3⟩]⟩]) (fun _ => none)
      0 2 1 (by decide) (by decide) (by decide),
   geoWalkSum_bucket_spec.2 (buildGeoMaps [⟨0, [⟨"IMPORT", 900, 7, 3⟩]⟩]) (fun _ => none)
      0 2 0 (by decide) (by decide)⟩

/-! ## Geo epoch-feed ingestion with range filtering (cumulative form of
`PopulateGeoData`, src/geo.go:106-149) -/

/-- The state of the cumulative ingestion pass (src/geo.go:107-115): the
four cumulative maps, the four running "last cumulative" values, the
reading counter, and the group-start instants of the discarded readings
(the two `log.Printf("Warning discarded GEO data ...")` branches). -/
structure GeoCumState where
  cumulativeEnergy : Int → Option Int
  cumulativeGas : Int → Option Int
  cumulativeCost : Int → Option Int
  cumulativeGasCost : Int → Option Int
  lastCumulativeEnergy : Int
  lastCumulativeGas : Int
  lastCumulativeCost : Int
  lastCumulativeGasCost : Int
  count : Nat
  discarded : List Int

def geoCumInit : GeoCumState :=
  ⟨fun _ => none, fun _ => none, fun _ => none, fun _ => none, 0, 0, 0, 0, 0, []⟩

/-- One iteration of the cumulative ingestion loop (src/geo.go:119-148):
count the reading; discard it with a warning when the reading group's
start instant (`startTime`) lies strictly before the start date or
strictly after the end date; otherwise accumulate the reading into its
channel's cumulative map, keyed by the epoch end `startTime + duration`
seconds, and advance that channel's running total.  Channels other than
`IMPORT` and `GAS_ENERGY` fall through the `switch` untouched. -/
def geoIngestReading (startDate endDate : Int) (s : GeoCumState)
    (groupStart : Int) (r : GeoReading) : GeoCumState :=
  let s1 := { s with count := s.count + 1 }
  if groupStart < startDate then
    { s1 with discarded := s1.discarded ++ [groupStart] }
  else if endDate < groupStart then
    { s1 with discarded := s1.discarded ++ [groupStart] }
  else
    let endTime := groupStart + r.duration
    if r.energyType = "IMPORT" then
      { s1 with
        cumulativeEnergy := mapUpdate s1.cumulativeEnergy endTime
          (s1.lastCumulativeEnergy + r.energyWattHours),
        cumulativeCost := mapUpdate s1.cumulativeCost endTime
          (s1.lastCumulativeCost + r.milliPenceCost),
        lastCumulativeEnergy := s1.lastCumulativeEnergy + r.energyWattHours,
        lastCumulativeCost := s1.lastCumulativeCost + r.milliPenceCost }
    else if r.energyType = "GAS_ENERGY" then
      { s1 with
        cumulativeGas := mapUpdate s1.cumulativeGas endTime
          (s1.lastCumulativeGas + r.energyWattHours),
        cumulativeGasCost := mapUpdate s1.cumulativeGasCost endTime
          (s1.lastCumulativeGasCost + r.milliPenceCost),
        lastCumulativeGas := s1.lastCumulativeGas + r.energyWattHours,
        lastCumulativeGasCost := s1.lastCumulativeGasCost + r.milliPenceCost }
    else s1

/-- The full double loop over reading groups (src/geo.go:118-149). -/
def geoIngestAll (startDate endDate : Int) (groups : List GeoReadingGroup) : GeoCumState :=
  groups.foldl
    (fun s g =>
      g.readings.foldl
        (fun s' r => geoIngestReading startDate endDate s' g.startTimestamp r) s)
    geoCumInit

/-- **C7 counterexample.**  The range filter tests the reading group's
*start* instant, not the epoch end.  With window `[0, 36000]`: a reading
whose epoch end `-300 + 900 = 600` lies inside the window is nevertheless
discarded (state untouched, instant logged) because its group start
`-300` is before the window; and a reading whose epoch end
`36000 + 900 = 36900` lies outside the window is nevertheless accepted
into the cumulative totals because its group start `36000` is inside. -/
theorem geoIngestReading_filters_on_group_start :
    ((0 : Int) ≤ -300 + 900 ∧ (-300 + 900 : Int) ≤ 36000) ∧
    (geoIngestReading 0 36000 geoCumInit (-300) ⟨"IMPORT", 900, 1470, 34559⟩).cumulativeEnergy
        (-300 + 900) = none ∧
    (geoIngestReading 0 36000 geoCumInit (-300) ⟨"IMPORT", 900, 1470, 34559⟩).lastCumulativeEnergy
        = 0 ∧
    (geoIngestReading 0 36000 geoCumInit (-300) ⟨"IMPORT", 900, 1470, 34559⟩).discarded
        = [-300] ∧
    ¬((36000 + 900 : Int) ≤ 36000) ∧
    (geoIngestReading 0 36000 geoCumInit 36000 ⟨"IMPORT", 900, 1470, 34559⟩).cumulativeEnergy
        (36000 + 900) = some 1470 := by
  decide

/-- **C7 (amended).**  The ingestion pass rejects — logs and skips,
leaving every cumulative map and every running total untouched — exactly
those readings whose reading-group start instant lies outside the
requested `[start, end]` window (strictly before start or strictly after
end); every reading whose group start lies inside the window is accepted
into its channel's cumulative totals, keyed by the epoch end
(group start + duration). -/
theorem geoIngestReading_range_spec :
    (∀ (sd ed : Int) (s : GeoCumState) (g : Int) (r : GeoReading),
        g < sd ∨ ed < g →
        geoIngestReading sd ed s g r =
          { s with count := s.count + 1, discarded := s.discarded ++ [g] }) ∧
    (∀ (sd ed : Int) (s : GeoCumState) (g : Int) (r : GeoReading),
        sd ≤ g → g ≤ ed → r.energyType = "IMPORT" →
        geoIngestReading sd ed s g r =
          { s with count := s.count + 1,
                   cumulativeEnergy := mapUpdate s.cumulativeEnergy (g + r.duration)
                     (s.lastCumulativeEnergy + r.energyWattHours),
                   cumulativeCost := mapUpdate s.cumulativeCost (g + r.duration)
                     (s.lastCumulativeCost + r.milliPenceCost),
                   lastCumulativeEnergy := s.lastCumulativeEnergy + r.energyWattHours,
                   lastCumulativeCost := s.lastCumulativeCost + r.milliPenceCost }) ∧
    (∀ (sd ed : Int) (s : GeoCumState) (g : Int) (r : GeoReading),
        sd ≤ g → g ≤ ed → r.energyType = "GAS_ENERGY" →
        geoIngestReading sd ed s g r =
          { s with count := s.count + 1,
                   cumulativeGas := mapUpdate s.cumulativeGas (g + r.duration)
                     (s.lastCumulativeGas + r.energyWattHours),
                   cumulativeGasCost := mapUpdate s.cumulativeGasCost (g + r.duration)
                     (s.lastCumulativeGasCost + r.milliPenceCost),
                   lastCumulativeGas := s.lastCumulativeGas + r.energyWattHours,
                   lastCumulativeGasCost := s.lastCumulativeGasCost + r.milliPenceCost }) := by
  refine ⟨?_, ?_, ?_⟩
  · intro sd ed s g r h
    rcases h with h | h
    · simp only [geoIngestReading, if_pos h]
    · by_cases hlt : g < sd
      · simp only [geoIngestReading, if_pos hlt]
      · rw [geoIngestReading, if_neg hlt, if_pos h]
  · intro sd ed s g r h1 h2 hty
    rw [geoIngestReading, if_neg (by omega), if_neg (by omega), if_pos hty]
  · intro sd ed s g r h1 h2 hty
    have hne : r.energyType ≠ "IMPORT" := by rw [hty]; decide
    rw [geoIngestReading, if_neg (by omega), if_neg (by omega), if_neg hne, if_pos hty]

/-- Witness for the three parts of `geoIngestReading_range_spec`: the
window `[0, 36000]` with a group start before the window (rejected), an
in-window IMPORT reading and an in-window GAS_ENERGY reading. -/
theorem geoIngestReading_range_spec_witness :
    (geoIngestReading 0 36000 geoCumInit (-300) ⟨"IMPORT", 900, 1470, 34559⟩ =
      { geoCumInit with count := geoCumInit.count + 1,
                        discarded := geoCumInit.discarded ++ [-300] }) ∧
    (geoIngestReading 0 36000 geoCumInit 900 ⟨"IMPORT", 900, 1470, 34559⟩ =
      { geoCumInit with count := geoCumInit.count + 1,
                        cumulativeEnergy := mapUpdate geoCumInit.cumulativeEnergy (900 + 900)
                          (geoCumInit.lastCumulativeEnergy + 1470),
                        cumulativeCost := mapUpdate geoCumInit.cumulativeCost (900 + 900)
                          (geoCumInit.lastCumulativeCost + 34559),
                        lastCumulativeEnergy := geoCumInit.lastCumulativeEnergy + 1470,
                        lastCumulativeCost := geoCumInit.lastCumulativeCost + 34559 }) ∧
    (geoIngestReading 0 36000 geoCumInit 900 ⟨"GAS_ENERGY", 900, 500, 12000⟩ =
      { geoCumInit with count := geoCumInit.count + 1,
                        cumulativeGas := mapUpdate geoCumInit.cumulativeGas (900 + 900)
                          (geoCumInit.lastCumulativeGas + 500),
                        cumulativeGasCost := mapUpdate geoCumInit.cumulativeGasCost (900 + 900)
                          (geoCumInit.lastCumulativeGasCost + 12000),
                        lastCumulativeGas := geoCumInit.lastCumulativeGas + 500,
                        lastCumulativeGasCost := geoCumInit.lastCumulativeGasCost + 12000 }) :=
  ⟨geoIngestReading_range_spec.1 0 36000 geoCumInit (-300) ⟨"IMPORT", 900, 1470, 34559⟩
      (Or.inl (by decide)),
   geoIngestReading_range_spec.2.1 0 36000 geoCumInit 900 ⟨"IMPORT", 900, 1470, 34559⟩
      (by decide) (by decide) rfl,
   geoIngestReading_range_spec.2.2 0 36000 geoCumInit 900 ⟨"GAS_ENERGY", 900, 500, 12000⟩
      (by decide) (by decide) rfl⟩

/-! ## Fixed-point cost computation (`computeCost`, src/csv.go:29-37) -/

/-- Go's `int64(f)` conversion: truncation toward zero.  A rational `q`
is `q.num / q.den` with positive denominator, so the truncation is the
round-toward-zero division `Int.tdiv` of numerator by denominator. -/
def truncInt (q : ℚ) : Int := q.num.tdiv (q.den : Int)

/-- `computeCost` (src/csv.go:29-37): with both operands present, scale
each by the constant 10000 (4 decimal places), truncate to integers,
multiply as integers, divide back down by 10000 with Go's truncated
integer division, and return the result rescaled (the Go code then
renders it with `Sprintf("%.2f")`; the exact rational value before that
display rounding is returned here).  With either operand nil the Go code
returns the string `"NaN"`, modelled as `none`. -/
def computeCost (energy price : Option ℚ) : Option ℚ :=
  match energy, price with
  | some e, some p =>
      let energyInt := truncInt (e * 10000)
      let priceInt := truncInt (p * 10000)
      let costInt := (energyInt * priceInt).tdiv 10000
      some ((costInt : ℚ) / 10000)
  | _, _ => none

/-- **C8.**  The cost calculator scales both operands by 10000, multiplies
as integers and divides back down; at energy 1.0 and rate 10.5 the result
is exactly 10.5, whose two-decimal rendering 10.50 is exact (the value
times 100 is the integer 1050), and 10000 repeated additions of that cost
sum to exactly 105000 with no drift; a missing (`nil`) energy or rate
yields the explicit undefined result `none` ("NaN"), never a substituted
zero. -/
theorem computeCost_fixed_point :
    computeCost (some 1) (some 10.5) = some 10.5 ∧
    (computeCost (some 1) (some 10.5)).getD 0 * 100 = 1050 ∧
    (List.replicate 10000 ((computeCost (some 1) (some 10.5)).getD 0)).sum = 105000 ∧
    (∀ p : Option ℚ, computeCost none p = none) ∧
    (∀ e : Option ℚ, computeCost e none = none) := by
  have h1 : (1 : ℚ) * 10000 = ((10000 : ℤ) : ℚ) := by norm_num
  have h2 : (10.5 : ℚ) * 10000 = ((105000 : ℤ) : ℚ) := by norm_num
  have ht1 : truncInt ((1 : ℚ) * 10000) = 10000 := by
    rw [truncInt, h1, Rat.num_intCast, Rat.den_intCast]
    decide
  have ht2 : truncInt ((10.5 : ℚ) * 10000) = 105000 := by
    rw [truncInt, h2, Rat.num_intCast, Rat.den_intCast]
    decide
  have h3 : ((10000 : ℤ) * 105000).tdiv 10000 = 105000 := by decide
  have hcost : computeCost (some 1) (some 10.5) = some (((105000 : ℤ) : ℚ) / 10000) := by
    simp only [computeCost, ht1, ht2, h3]
  have hval : ((105000 : ℤ) : ℚ) / 10000 = 10.5 := by norm_num
  refine ⟨?_, ?_, ?_, ?_, ?_⟩
  · rw [hcost, hval]
  · rw [hcost, hval]
    simp only [Option.getD_some]
    norm_num
  · rw [hcost, hval]
    simp only [Option.getD_some]
    rw [List.sum_replicate, nsmul_eq_mul]
    norm_num
  · intro p; cases p <;> rfl
  · intro e; cases e <;> rfl

/-! ## Output ordering and emission (`Run`, src/unnamed/part_004:151-166,
and `writeCSV`, src/csv.go:40-56) -/

/-- Go's `sort.Slice(data, func(i, j int) bool { return
data[i].Timestamp.Before(data[j].Timestamp) })`: sorts the collected rows
ascending by timestamp.  On rows with pairwise-distinct timestamps every
comparison sort under this ordering produces the same unique ascending
arrangement, so the sort is modelled by insertion with the identical
comparator. -/
def insertByTs (r : UsageRow) : List UsageRow → List UsageRow
  | [] => [r]
  | x :: xs => if r.timestamp < x.timestamp then r :: x :: xs else x :: insertByTs r xs

def sortByTs (l : List UsageRow) : List UsageRow := l.foldr insertByTs []

/-- `writeCSV` (src/csv.go:40-56): fewer than two rows is an error, raised
before `os.Create` runs, so no output file is created or truncated;
otherwise the first row is removed (`data = data[1:]`, it has no
predecessor so its deltas are not valid) and one CSV record is written per
remaining row after the header.  The emitted records are modelled by the
rows they are rendered from; an `error` result means the file was never
touched. -/
def writeCSV (data : List UsageRow) : Except String (List UsageRow) :=
  if data.length < 2 then Except.error "not enough data to write CSV"
  else Except.ok (data.drop 1)

/-- The final step of `Run` (src/unnamed/part_004:151-166): collect the
usage rows, sort ascending by bucket timestamp, hand them to `writeCSV`. -/
def runEmit (rows : List UsageRow) : Except String (List UsageRow) :=
  writeCSV (sortByTs rows)

theorem insertByTs_perm (r : UsageRow) (l : List UsageRow) :
    (insertByTs r l).Perm (r :: l) := by
  induction l with
  | nil => exact List.Perm.refl _
  | cons x xs ih =>
    simp only [insertByTs]
    split
    · exact List.Perm.refl _
    · exact (ih.cons x).trans (List.Perm.swap r x xs)

theorem sortByTs_perm (l : List UsageRow) : (sortByTs l).Perm l := by
  induction l with
  | nil => exact List.Perm.refl _
  | cons x xs ih =>
    exact (insertByTs_perm x (sortByTs xs)).trans (ih.cons x)

theorem insertByTs_pairwise (r : UsageRow) (l : List UsageRow)
    (h : l.Pairwise (fun a b => a.timestamp ≤ b.timestamp)) :
    (insertByTs r l).Pairwise (fun a b => a.timestamp ≤ b.timestamp) := by
  induction l with
  | nil => simp [insertByTs]
  | cons x xs ih =>
    rcases List.pairwise_cons.mp h with ⟨hx, hxs⟩
    simp only [insertByTs]
    split
    · rename_i hlt
      refine List.pairwise_cons.mpr ⟨?_, h⟩
      intro b hb
      rcases List.mem_cons.mp hb with hb | hb
      · rw [hb]; exact le_of_lt hlt
      · exact le_trans (le_of_lt hlt) (hx b hb)
    · rename_i hnlt
      refine List.pairwise_cons.mpr ⟨?_, ih hxs⟩
      intro b hb
      have hb' : b ∈ r :: xs := (insertByTs_perm r xs).mem_iff.mp hb
      rcases List.mem_cons.mp hb' with hb'' | hb''
      · rw [hb'']; exact not_lt.mp hnlt
      · exact hx b hb''

theorem sortByTs_pairwise (l : List UsageRow) :
    (sortByTs l).Pairwise (fun a b => a.timestamp ≤ b.timestamp) := by
  induction l with
  | nil => simp [sortByTs]
  | cons x xs ih => exact insertByTs_pairwise x (sortByTs xs) ih

/-- **C9.**  The final emitted output is the collected usage rows sorted
by bucket timestamp with the first row of the sorted list dropped: the
sorted list is a permutation of the collected rows, it is strictly
ascending in timestamp (given the collected rows have pairwise-distinct
bucket timestamps, which map-keyed collection guarantees), the emitted
value is exactly the sorted list without its head, and every remaining
row appears in it exactly once. -/
theorem runEmit_sorted_drop_first (rows : List UsageRow)
    (hd : rows.Pairwise (fun a b => a.timestamp ≠ b.timestamp))
    (hl : 2 ≤ rows.length) :
    runEmit rows = Except.ok ((sortByTs rows).drop 1) ∧
    (sortByTs rows).Perm rows ∧
    (sortByTs rows).Pairwise (fun a b => a.timestamp < b.timestamp) ∧
    (∀ r ∈ (sortByTs rows).drop 1, ((sortByTs rows).drop 1).count r = 1) := by
  have hperm := sortByTs_perm rows
  have hlen : (sortByTs rows).length = rows.length := hperm.length_eq
  have hneq : (sortByTs rows).Pairwise (fun a b => a.timestamp ≠ b.timestamp) :=
    (hperm.pairwise_iff fun hab => hab.symm).mpr hd
  have hlt : (sortByTs rows).Pairwise (fun a b => a.timestamp < b.timestamp) :=
    ((sortByTs_pairwise rows).and hneq).imp fun hab => lt_of_le_of_ne hab.1 hab.2
  have hnodup : ((sortByTs rows).drop 1).Nodup := by
    have hnd : (sortByTs rows).Nodup :=
      hlt.imp fun hab heq => absurd (heq ▸ hab) (lt_irrefl _)
    exact hnd.sublist (List.drop_sublist 1 (sortByTs rows))
  refine ⟨?_, hperm, hlt, ?_⟩
  · unfold runEmit writeCSV
    rw [if_neg (by omega)]
  · intro r hr
    exact List.count_eq_one_of_mem hnodup hr

/-- Witness for `runEmit_sorted_drop_first` on three rows delivered out of
order. -/
theorem runEmit_sorted_drop_first_witness :
    runEmit [newUsageRow 3600, newUsageRow 0, newUsageRow 1800] =
      Except.ok ((sortByTs [newUsageRow 3600, newUsageRow 0, newUsageRow 1800]).drop 1) ∧
    (sortByTs [newUsageRow 3600, newUsageRow 0, newUsageRow 1800]).Perm
      [newUsageRow 3600, newUsageRow 0, newUsageRow 1800] ∧
    (sortByTs [newUsageRow 3600, newUsageRow 0, newUsageRow 1800]).Pairwise
      (fun a b => a.timestamp < b.timestamp) ∧
    (∀ r ∈ (sortByTs [newUsageRow 3600, newUsageRow 0, newUsageRow 1800]).drop 1,
      ((sortByTs [newUsageRow 3600, newUsageRow 0, newUsageRow 1800]).drop 1).count r = 1) :=
  runEmit_sorted_drop_first [newUsageRow 3600, newUsageRow 0, newUsageRow 1800]
    (by decide) (by decide)

/-- **C10.**  `writeCSV` with fewer than two rows returns the error
"not enough data to write CSV" — raised before the output file would be
created, so under the embedding no output is produced at all — and with
two or more rows emits exactly `length - 1` data records after the
header. -/
theorem writeCSV_guard_and_count :
    (∀ data : List UsageRow, data.length < 2 →
        writeCSV data = Except.error "not enough data to write CSV") ∧
    (∀ data : List UsageRow, 2 ≤ data.length →
        writeCSV data = Except.ok (data.drop 1) ∧
        (data.drop 1).length = data.length - 1) := by
  constructor
  · intro data h
    unfold writeCSV
    rw [if_pos h]
  · intro data h
    refine ⟨?_, ?_⟩
    · unfold writeCSV
      rw [if_neg (by omega)]
    · simp

/-- Witness for `writeCSV_guard_and_count`: a single-row input errors out,
a three-row input emits two records. -/
theorem writeCSV_guard_and_count_witness :
    writeCSV [newUsageRow 0] = Except.error "not enough data to write CSV" ∧
    (writeCSV [newUsageRow 0, newUsageRow 1800, newUsageRow 3600] =
        Except.ok ([newUsageRow 0, newUsageRow 1800, newUsageRow 3600].drop 1) ∧
      ([newUsageRow 0, newUsageRow 1800, newUsageRow 3600].drop 1).length =
        [newUsageRow 0, newUsageRow 1800, newUsageRow 3600].length - 1) :=
  ⟨writeCSV_guard_and_count.1 [newUsageRow 0] (by decide),
   writeCSV_guard_and_count.2 [newUsageRow 0, newUsageRow 1800, newUsageRow 3600] (by decide)⟩

end GivergyGaps
